import Mathlib

/-!
Verification of the nakama RAG pipeline core against its specification.

The development shallowly embeds the Python sources:
  src/utils/text_utils.py           (chunking, sentence splitting)
  src/utils/memory_optimizer.py     (the MemoryOptimizer object)
  src/services/embedding_service.py (batched embedding with caching, cosine similarity)
  src/services/database_service.py  (batch insert, similarity search with fallback)
  src/controllers/rag_controller.py (ask/stream orchestration, conversation history)

Strings are modelled as lists of characters, Python floats as rationals
(or reals where a square root is genuinely computed), Python exceptions
as an explicit error type threaded through `Except`.
-/

/-- A Python exception, as visible to the except-clauses of the embedded code. -/
inductive PyErr where
  | attributeError : String → PyErr
  | runtimeError : String → PyErr
  | nameError : String → PyErr
  | valueError : String → PyErr
  | other : String → PyErr
deriving DecidableEq, Repr

/-- `str(e)` applied to a Python exception: its message. -/
def pyMsg : PyErr → String
  | .attributeError m => m
  | .runtimeError m => m
  | .nameError m => m
  | .valueError m => m
  | .other m => m

/-! ## Text utilities (src/utils/text_utils.py) -/

/-- Python's regex class `\s` (whitespace), on the characters that occur here. -/
def pyIsSpace (c : Char) : Bool :=
  c = ' ' || c = '\t' || c = '\n' || c = '\r' || c = '\x0b' || c = '\x0c'

/-- Python's regex class `\w` (word character), ASCII part. -/
def pyIsWord (c : Char) : Bool :=
  c.isAlpha || c.isDigit || c = '_'

/-- Python's `str.strip()`: drop leading and trailing whitespace. -/
def pyStrip (s : List Char) : List Char :=
  ((s.dropWhile pyIsSpace).reverse.dropWhile pyIsSpace).reverse

/-- Python's `s[-n:]` for `n > 0`: the last `min n (length s)` characters. -/
def pyTakeLast (n : Nat) (s : List Char) : List Char :=
  s.drop (s.length - n)

/-- The split condition of `split_into_sentences` (text_utils.py line 120):
a whitespace character at which `re.split` cuts, i.e. one preceded by `.`/`!`/`?`
(lookbehind `(?<=[.!?])`), but not preceded by the abbreviation patterns
`\w\.\w.` or `[A-Z][a-z]\.` (the two negative lookbehinds).
`prev` lists the characters before the cut point, nearest first. -/
def sentence_split_here (prev : List Char) (c : Char) : Bool :=
  pyIsSpace c &&
  (match prev with
   | p1 :: _ => p1 = '.' || p1 = '!' || p1 = '?'
   | [] => false) &&
  !(match prev with
    | p1 :: p2 :: p3 :: p4 :: _ => pyIsWord p4 && p3 = '.' && pyIsWord p2 && p1 ≠ '\n'
    | _ => false) &&
  !(match prev with
    | p1 :: p2 :: p3 :: _ =>
        ('A' ≤ p3 && p3 ≤ 'Z') && ('a' ≤ p2 && p2 ≤ 'z') && p1 = '.'
    | _ => false)

/-- The scan underlying `re.split`: walk the text keeping the reversed prefix
`prev` for the lookbehinds and the current piece `acc` (reversed); each matched
whitespace separator closes a piece. -/
def sentence_split_scan (prev acc : List Char) : List Char → List (List Char)
  | [] => [acc.reverse]
  | c :: rest =>
    if sentence_split_here prev c then
      acc.reverse :: sentence_split_scan (c :: prev) [] rest
    else
      sentence_split_scan (c :: prev) (c :: acc) rest

/-- `split_into_sentences` (text_utils.py lines 107-124): regex split, then
strip every piece and keep the non-empty ones. -/
def split_into_sentences (text : List Char) : List (List Char) :=
  ((sentence_split_scan [] [] text).map pyStrip).filter (fun s => !s.isEmpty)

/-- The sentence-accumulation loop of `chunk_text` (text_utils.py lines 80-91):
fold the sentences into `(chunks, current_chunk)`.  When adding the next
sentence would push `current_chunk` past `chunk_size`, the current chunk is
flushed (stripped) and a new one is seeded, either with the last `overlap`
characters of the closed chunk plus a space plus the sentence, or with the
sentence alone.  Otherwise the sentence is appended after a joining space. -/
def chunk_accum (chunk_size overlap : Nat) :
    List (List Char) → List Char → List (List Char) → List (List Char) × List Char
  | chunks, current, [] => (chunks, current)
  | chunks, current, s :: rest =>
    if current.length + s.length > chunk_size ∧ current ≠ [] then
      let chunks' := chunks ++ [pyStrip current]
      let current' :=
        if overlap > 0 ∧ current.length > overlap then
          pyTakeLast overlap current ++ (' ' :: s)
        else s
      chunk_accum chunk_size overlap chunks' current' rest
    else
      chunk_accum chunk_size overlap chunks
        (if current ≠ [] then current ++ (' ' :: s) else s) rest

/-- The window advance of the character-based branch of `chunk_text`
(text_utils.py line 103): `start = end - overlap if overlap > 0 else end`
with `end = start + chunk_size`. -/
def char_chunk_step (chunk_size overlap start : Nat) : Nat :=
  if overlap > 0 then start + chunk_size - overlap else start + chunk_size

/-- The `while start < len(text)` loop of the character-based branch of
`chunk_text` (text_utils.py lines 98-103), with explicit fuel: `none` means the
fuel ran out before the loop finished (the Python loop would still be running). -/
def char_chunk_loop (text : List Char) (chunk_size overlap : Nat) :
    Nat → Nat → Option (List (List Char))
  | 0, start => if start < text.length then none else some []
  | fuel + 1, start =>
    if start < text.length then
      let chunk := (text.drop start).take chunk_size
      match char_chunk_loop text chunk_size overlap fuel
          (char_chunk_step chunk_size overlap start) with
      | some rest => some (chunk :: rest)
      | none => none
    else some []

/-- `chunk_text` (text_utils.py lines 54-105).  Empty text gives `[]`; text no
longer than `chunk_size` is returned whole; otherwise either the
sentence-preserving accumulation or the character window runs, and finally
whitespace-only chunks are dropped.  The character branch is given
`text.length` fuel; the termination theorem below shows this suffices whenever
`overlap < chunk_size`. -/
def chunk_text (text : List Char) (chunk_size : Nat := 500) (overlap : Nat := 50)
    (preserve_sentences : Bool := true) : List (List Char) :=
  if text = [] then []
  else if text.length ≤ chunk_size then [text]
  else
    let chunks :=
      if preserve_sentences then
        let acc := chunk_accum chunk_size overlap [] [] (split_into_sentences text)
        if acc.2 ≠ [] then acc.1 ++ [pyStrip acc.2] else acc.1
      else
        match char_chunk_loop text chunk_size overlap text.length 0 with
        | some cs => cs
        | none => []
    chunks.filter (fun c => !(pyStrip c).isEmpty)

/-- The length of the longest sentence `split_into_sentences` extracts. -/
def max_sentence_len (text : List Char) : Nat :=
  ((split_into_sentences text).map List.length).foldr max 0

/-! ## Embedding service (src/services/embedding_service.py) with the
MemoryOptimizer object (src/utils/memory_optimizer.py) -/

/-- An embedding vector (Python `List[float]`). -/
abbrev Vec := List ℚ

/-- The attribute access `memory_optimizer.get_cached_embedding(text)`
(embedding_service.py line 111).  The `MemoryOptimizer` class
(memory_optimizer.py lines 21-70) defines only `optimize_gc`,
`get_memory_stats`, `clear_embedding_cache` and `clear_all_caches` — its
`__init__` notes the embedding LRU cache is managed elsewhere — so this
lookup raises `AttributeError` in Python. -/
def MemoryOptimizer.get_cached_embedding (_text : String) : Except PyErr (Option Vec) :=
  .error (.attributeError "MemoryOptimizer object has no attribute get_cached_embedding")

/-- The attribute access `memory_optimizer.cache_embedding(text, embedding)`
(embedding_service.py line 139): likewise missing from the class, so it
raises `AttributeError`. -/
def MemoryOptimizer.cache_embedding (_text : String) (_v : Vec) : Except PyErr Unit :=
  .error (.attributeError "MemoryOptimizer object has no attribute cache_embedding")

/-- The first loop of `generate_embeddings_batch` (embedding_service.py lines
110-117): probe the cache for every text, building the placeholder output list
together with the uncached texts and their original indices. -/
def classify_texts : Nat → List String → Except PyErr (List (Option Vec) × List String × List Nat)
  | _, [] => .ok ([], [], [])
  | i, t :: rest => do
    let cached ← MemoryOptimizer.get_cached_embedding t
    let (alls, uts, uis) ← classify_texts (i + 1) rest
    match cached with
    | some v => .ok (some v :: alls, uts, uis)
    | none => .ok (none :: alls, t :: uts, i :: uis)

/-- Caching pass over one encoded sub-batch (embedding_service.py lines
138-139): `memory_optimizer.cache_embedding(text, batch_list[j])` per text. -/
def cache_batch : List (String × Vec) → Except PyErr Unit
  | [] => .ok ()
  | (t, v) :: rest => do
    let _ ← MemoryOptimizer.cache_embedding t v
    cache_batch rest

/-- The sub-batch loop of `generate_embeddings_batch` (embedding_service.py
lines 124-139): slice the uncached texts into groups of `batch_size`, encode
each group with the external model `f`, cache every freshly computed vector,
and concatenate the results.  `range(0, n, 0)` raises `ValueError` in Python,
hence the guard. -/
def encode_batches (f : String → Vec) (batch_size : Nat) :
    List String → Except PyErr (List Vec)
  | [] => .ok []
  | t :: ts =>
    if _h : batch_size = 0 then
      .error (.valueError "range() arg 3 must not be zero")
    else do
      let batch := (t :: ts).take batch_size
      let batch_list := batch.map f
      let _ ← cache_batch (batch.zip batch_list)
      let rest ← encode_batches f batch_size ((t :: ts).drop batch_size)
      .ok (batch_list ++ rest)
termination_by uncached => uncached.length
decreasing_by
  simp only [List.length_drop, List.length_cons]
  omega

/-- The fill loop of `generate_embeddings_batch` (embedding_service.py lines
142-143): write each freshly computed vector at its original index. -/
def fill_embeddings (alls : List (Option Vec)) :
    List Nat → List Vec → List (Option Vec)
  | [], _ => alls
  | _, [] => alls
  | i :: is, v :: vs => fill_embeddings (alls.set i (some v)) is vs

/-- The body of the `try` block of `generate_embeddings_batch`
(embedding_service.py lines 102-149). -/
def generate_embeddings_batch_try (f : String → Vec) (texts : List String)
    (batch_size : Nat) : Except PyErr (List (Option Vec)) := do
  let (all_embeddings, uncached_texts, uncached_indices) ← classify_texts 0 texts
  if uncached_texts.isEmpty then
    .ok all_embeddings
  else do
    let uncached_embeddings ← encode_batches f batch_size uncached_texts
    .ok (fill_embeddings all_embeddings uncached_indices uncached_embeddings)

/-- `generate_embeddings_batch` (embedding_service.py lines 88-152): the
`try` body above, with the `except` clause re-raising any exception as
`RuntimeError("Failed to generate batch embeddings")`.  The external embedding
model (`self.model.encode`) is abstracted as the pure function `f`. -/
def generate_embeddings_batch (f : String → Vec) (texts : List String)
    (batch_size : Nat := 32) : Except PyErr (List (Option Vec)) :=
  match generate_embeddings_batch_try f texts batch_size with
  | .ok v => .ok v
  | .error _ => .error (.runtimeError "Failed to generate batch embeddings")

/-! ## Database service (src/services/database_service.py) -/

/-- A row of the external `documents` table, with the fields the code reads. -/
structure StoredRow where
  id : Nat
  content : String
  created_at : Option String := none
deriving DecidableEq, Repr

/-- A similarity-search result dictionary, as returned by
`search_similar_documents` (either straight from the RPC or built by
`_fallback_search`). -/
structure SearchResult where
  id : Nat
  content : String
  similarity : ℚ
  created_at : Option String := none
deriving DecidableEq, Repr

/-- The Supabase client as `search_similar_documents` sees it: the ranked RPC
`search_documents_cosine` (an external capability that may raise), the rows of
the `documents` table behind `.select», and whether the fallback select itself
raises. -/
structure SearchClient where
  rpc_search : Vec → ℚ → Nat → Except PyErr (List SearchResult)
  table_rows : List StoredRow
  select_fails : Option PyErr := none

/-- `_fallback_search` (database_service.py lines 175-193): unranked
`select(*).limit(limit)`; each returned row gets the placeholder similarity
0.5; any error yields the empty list. -/
def fallback_search (c : SearchClient) (limit : Nat) : List SearchResult :=
  match c.select_fails with
  | some _ => []
  | none =>
    let rows := c.table_rows.take limit
    if rows.isEmpty then []
    else rows.map (fun d => { id := d.id, content := d.content,
                              similarity := 1/2, created_at := d.created_at })

/-- `search_similar_documents` (database_service.py lines 134-173): ranked RPC
at the caller threshold; on zero rows, one retry at the fixed threshold 0.3
with the same limit; on any exception, `_fallback_search`. -/
def search_similar_documents (c : SearchClient) (query_embedding : Vec)
    (limit : Nat := 5) (similarity_threshold : ℚ := 3/5) : List SearchResult :=
  match c.rpc_search query_embedding similarity_threshold limit with
  | .ok (d :: ds) => d :: ds
  | .ok [] =>
    match c.rpc_search query_embedding (3/10) limit with
    | .ok data => data
    | .error _ => fallback_search c limit
  | .error _ => fallback_search c limit

/-- The ranked-RPC invocations `search_similar_documents` performs, in order
(each recorded as query, threshold, limit), mirroring its control flow. -/
def search_rpc_trace (c : SearchClient) (query_embedding : Vec)
    (limit : Nat) (similarity_threshold : ℚ) : List (Vec × ℚ × Nat) :=
  match c.rpc_search query_embedding similarity_threshold limit with
  | .ok (_ :: _) => [(query_embedding, similarity_threshold, limit)]
  | .ok [] => [(query_embedding, similarity_threshold, limit),
               (query_embedding, 3/10, limit)]
  | .error _ => [(query_embedding, similarity_threshold, limit)]

/-- An input document for ingestion: a content string with optional metadata
(the metadata kept opaque as a list of key-value pairs). -/
structure Doc where
  content : String
  metadata : List (String × String) := []
deriving DecidableEq, Repr

/-- A row handed to the store's bulk insert: content, embedding and metadata
(database_service.py lines 108-114).  The embedding slot holds what the
Python expression `embeddings[j]` held. -/
structure InsertRow where
  content : String
  embedding : Option Vec
  metadata : List (String × String)
deriving DecidableEq, Repr

/-- The batch loop of `batch_insert_documents` (database_service.py lines
95-128), threading the store's committed rows.  Per batch: embed the contents
via `generate_embeddings_batch` (an exception propagates to the caller's
`except`), build the rows, run the store's bulk insert — `insert_ok` says
whether the store confirms (returns data for) this insert; a confirmed insert
commits the rows, an unconfirmed one returns `False` immediately.  `range(0,
n, 0)` would raise `ValueError`, hence the guard. -/
def batch_insert_loop (f : String → Vec) (insert_ok : List InsertRow → Bool)
    (batch_size : Nat) (store : List InsertRow) :
    List Doc → List InsertRow × Except PyErr Bool
  | [] => (store, .ok true)
  | d :: ds =>
    if _h : batch_size = 0 then
      (store, .error (.valueError "range() arg 3 must not be zero"))
    else
      let batch_docs := (d :: ds).take batch_size
      match generate_embeddings_batch f (batch_docs.map Doc.content) 32 with
      | .error e => (store, .error e)
      | .ok embeddings =>
        let docs_to_insert := batch_docs.enum.map (fun p =>
          { content := p.2.content,
            embedding := embeddings.getD p.1 none,
            metadata := p.2.metadata })
        if insert_ok docs_to_insert then
          batch_insert_loop f insert_ok batch_size (store ++ docs_to_insert)
            ((d :: ds).drop batch_size)
        else (store, .ok false)
termination_by docs => docs.length
decreasing_by
  simp only [List.length_drop, List.length_cons]
  omega

/-- `batch_insert_documents` (database_service.py lines 75-132): run the batch
loop; any exception is caught and turned into the return value `False`.
Returns the store's committed rows together with the boolean result. -/
def batch_insert_documents (f : String → Vec) (insert_ok : List InsertRow → Bool)
    (store : List InsertRow) (documents : List Doc) (batch_size : Nat := 50) :
    List InsertRow × Bool :=
  match batch_insert_loop f insert_ok batch_size store documents with
  | (s, .ok b) => (s, b)
  | (s, .error _) => (s, false)

/-! ## RAG controller (src/controllers/rag_controller.py) -/

/-- A conversation turn: a role tag and text content. -/
structure Turn where
  role : String
  content : String
deriving DecidableEq, Repr

/-- `_update_conversation_history` (rag_controller.py lines 251-256): append
the user turn then the assistant turn; if the history now exceeds 20 entries,
keep only the last 20 (`history[-20:]`). -/
def update_conversation_history (history : List Turn) (question response : String) :
    List Turn :=
  let h := history ++ [⟨"user", question⟩, ⟨"assistant", response⟩]
  if h.length > 20 then h.drop (h.length - 20) else h

/-- `n` successive successful `ask` calls starting from an empty history, the
`k`-th asking `f k` and receiving `g k`: each one runs
`_update_conversation_history` once (rag_controller.py line 83). -/
def run_asks (f g : Nat → String) : Nat → List Turn
  | 0 => []
  | n + 1 => update_conversation_history (run_asks f g n) (f n) (g n)

/-- The services as `ask_question`/`stream_response` see them: each call
either returns or raises.  `search_documents` is the database layer's
`search_similar_documents`, which the code also allows to raise in general;
`stream_chunks` is the generation backend's streaming generator, consumed
whole by `"".join(list(...))` (rag_controller.py line 131). -/
structure RagEnv where
  generate_embedding : String → Except PyErr Vec
  search_documents : Vec → Nat → ℚ → Except PyErr (List SearchResult)
  generate_response : String → List SearchResult → List Turn → Except PyErr String
  stream_chunks : String → List SearchResult → List Turn → Except PyErr (List String)

/-- The response dictionary of `ask_question`: the success shape carries
`context_used`/`context_docs` and no `error` key; the failure shape carries
`error` and neither context key. -/
structure AskResponse where
  response : String
  error : Option String := none
  context_used : Option Bool := none
  context_docs : Option (List SearchResult) := none
deriving DecidableEq, Repr

/-- The `try` body of `ask_question` (rag_controller.py lines 59-89): embed
the question and retrieve context when `use_context`, generate the response,
update the history, and return the success dictionary. -/
def ask_question_try (env : RagEnv) (history : List Turn) (question : String)
    (use_context : Bool) (similarity_threshold : ℚ) (max_context_docs : Nat) :
    Except PyErr (AskResponse × List Turn) := do
  let context_docs ←
    if use_context then do
      let query_embedding ← env.generate_embedding question
      env.search_documents query_embedding max_context_docs similarity_threshold
    else pure []
  let response ← env.generate_response question context_docs history
  let history2 := update_conversation_history history question response
  pure ({ response := response,
          context_used := some (decide (0 < context_docs.length)),
          context_docs := some context_docs }, history2)

/-- `ask_question` (rag_controller.py lines 42-93): the `try` body above; any
exception is caught and turned into the error-shaped dictionary
a dictionary holding the message "I encountered an error: " + str(e) as the
response together with the error field str(e), with
the history left unchanged. -/
def ask_question (env : RagEnv) (history : List Turn) (question : String)
    (use_context : Bool := true) (similarity_threshold : ℚ := 3/5)
    (max_context_docs : Nat := 5) : AskResponse × List Turn :=
  match ask_question_try env history question use_context similarity_threshold
      max_context_docs with
  | .ok r => r
  | .error e =>
    ({ response := "I encountered an error: " ++ pyMsg e,
       error := some (pyMsg e) }, history)

/-- The `try` body of `stream_response` (rag_controller.py lines 112-140):
retrieve context, consume the backend stream into `full_response`, update the
history, and yield the full response as one fragment. -/
def stream_response_try (env : RagEnv) (history : List Turn) (question : String)
    (use_context : Bool) (similarity_threshold : ℚ) (max_context_docs : Nat) :
    Except PyErr (String × List Turn) := do
  let context_docs ←
    if use_context then do
      let query_embedding ← env.generate_embedding question
      env.search_documents query_embedding max_context_docs similarity_threshold
    else pure []
  let chunks ← env.stream_chunks question context_docs history
  let full_response := String.join chunks
  let history2 := update_conversation_history history question full_response
  pure (full_response, history2)

/-- `stream_response` (rag_controller.py lines 95-145), as observed by a
caller consuming the generator to its end: the fragments yielded, an escaping
exception if one propagates out of the generator, and the final history.  On
success the single fragment `full_response` is yielded.  On failure the
`except` clause yields the error fragment and then evaluates the undefined
name `error_message` (line 145), so a `NameError` escapes to the consumer. -/
def stream_response (env : RagEnv) (history : List Turn) (question : String)
    (use_context : Bool := true) (similarity_threshold : ℚ := 3/5)
    (max_context_docs : Nat := 5) : List String × Option PyErr × List Turn :=
  match stream_response_try env history question use_context similarity_threshold
      max_context_docs with
  | .ok (full_response, history2) => ([full_response], none, history2)
  | .error e =>
    (["I encountered an error: " ++ pyMsg e],
     some (.nameError "name error_message is not defined"), history)

/-! ## Cosine similarity (src/services/embedding_service.py lines 154-181)

`calculate_similarity` computes `np.dot` and two `np.linalg.norm` values;
the square roots force the real-number model, so these definitions live in
`ℝ` and are the only noncomputable ones in the development.  `np.dot` of two
equal-length 1-d arrays is the sum of pairwise products (for unequal lengths
numpy raises, so the theorems below carry a length hypothesis). -/

/-- `np.dot(vec1, vec2)` for 1-d arrays. -/
def np_dot (v1 v2 : List ℝ) : ℝ := (List.zipWith (· * ·) v1 v2).sum

/-- The sum of squares of a vector; `np.linalg.norm v` is its square root. -/
def sum_sq (v : List ℝ) : ℝ := (v.map (fun x => x * x)).sum

/-- `calculate_similarity` (embedding_service.py lines 154-181): cosine
similarity, with the explicit zero-norm guard returning `0.0`. -/
noncomputable def calculate_similarity (embedding1 embedding2 : List ℝ) : ℝ :=
  let dot_product := np_dot embedding1 embedding2
  let norm1 := Real.sqrt (sum_sq embedding1)
  let norm2 := Real.sqrt (sum_sq embedding2)
  if norm1 = 0 ∨ norm2 = 0 then 0
  else dot_product / (norm1 * norm2)

/-! ## Supporting definitions for the theorems -/

/-- The turns appended by `n` consecutive ask calls numbered `a, a+1, ...`:
for each call one user turn then one assistant turn. -/
def ask_pairs (f g : Nat → String) (a n : Nat) : List Turn :=
  (List.range n).flatMap (fun j => [⟨"user", f (a + j)⟩, ⟨"assistant", g (a + j)⟩])

/-- A client whose ranked RPC always raises, with two rows in the table and a
working unranked select: exercises the fallback path. -/
def rpc_error_client : SearchClient where
  rpc_search := fun _ _ _ => .error (.other "RPC missing")
  table_rows := [⟨1, "alpha", none⟩, ⟨2, "beta", none⟩]

/-- A client whose ranked RPC always succeeds with zero rows: exercises the
relaxed-retry path. -/
def rpc_empty_client : SearchClient where
  rpc_search := fun _ _ _ => .ok []
  table_rows := []

/-- An environment whose generation backend raises while streaming (and whose
retrieval side works): exercises the except-clause of `stream_response`. -/
def stream_fail_env : RagEnv where
  generate_embedding := fun _ => .ok []
  search_documents := fun _ _ _ => .ok []
  generate_response := fun _ _ _ => .ok ""
  stream_chunks := fun _ _ _ => .error (.runtimeError "LLM backend unreachable")

/-! ## Helper lemmas -/

lemma char_chunk_loop_isSome (text : List Char) (cs ov : Nat) (hov : ov < cs) :
    ∀ fuel start, text.length ≤ fuel + start →
      (char_chunk_loop text cs ov fuel start).isSome := by
  intro fuel
  induction fuel with
  | zero =>
    intro start h
    unfold char_chunk_loop
    rw [if_neg (by omega)]
    rfl
  | succ n ih =>
    intro start h
    unfold char_chunk_loop
    by_cases hs : start < text.length
    · rw [if_pos hs]
      have hstep : text.length ≤ n + char_chunk_step cs ov start := by
        unfold char_chunk_step
        split <;> omega
      have hrec := ih (char_chunk_step cs ov start) hstep
      cases hr : char_chunk_loop text cs ov n (char_chunk_step cs ov start) with
      | none => rw [hr] at hrec; simp at hrec
      | some r => simp [hr]
    · rw [if_neg hs]
      rfl

lemma pyStrip_length_le (s : List Char) : (pyStrip s).length ≤ s.length := by
  unfold pyStrip
  have h1 : ∀ l : List Char, (l.dropWhile pyIsSpace).length ≤ l.length :=
    fun l => (List.dropWhile_sublist pyIsSpace).length_le
  calc (((s.dropWhile pyIsSpace).reverse.dropWhile pyIsSpace).reverse).length
      = ((s.dropWhile pyIsSpace).reverse.dropWhile pyIsSpace).length := by
        rw [List.length_reverse]
    _ ≤ (s.dropWhile pyIsSpace).reverse.length := h1 _
    _ = (s.dropWhile pyIsSpace).length := by rw [List.length_reverse]
    _ ≤ s.length := h1 _

lemma pyTakeLast_length_le (n : Nat) (s : List Char) : (pyTakeLast n s).length ≤ n := by
  simp only [pyTakeLast, List.length_drop]
  omega

lemma le_foldr_max {l : List Nat} {x : Nat} (h : x ∈ l) : x ≤ l.foldr max 0 := by
  induction l with
  | nil => cases h
  | cons a t ih =>
    rcases List.mem_cons.mp h with rfl | h2
    · exact le_max_left _ _
    · exact le_trans (ih h2) (le_max_right _ _)

lemma chunk_accum_bound (chunk_size overlap L B : Nat)
    (hB1 : chunk_size + 1 ≤ B) (hB2 : overlap + 1 + L ≤ B) :
    ∀ (sentences chunks : List (List Char)) (current : List Char),
      (∀ s ∈ sentences, s.length ≤ L) →
      (∀ x ∈ chunks, x.length ≤ B) →
      current.length ≤ B →
      (∀ x ∈ (chunk_accum chunk_size overlap chunks current sentences).1, x.length ≤ B) ∧
      (chunk_accum chunk_size overlap chunks current sentences).2.length ≤ B := by
  intro sentences
  induction sentences with
  | nil =>
    intro chunks current _ hch hcur
    exact ⟨hch, hcur⟩
  | cons s rest ih =>
    intro chunks current hsent hch hcur
    have hs : s.length ≤ L := hsent s (by simp)
    have hrest : ∀ x ∈ rest, x.length ≤ L := fun x hx => hsent x (by simp [hx])
    unfold chunk_accum
    by_cases hcond : current.length + s.length > chunk_size ∧ current ≠ []
    · rw [if_pos hcond]
      refine ih _ _ hrest ?_ ?_
      · intro x hx
        rcases List.mem_append.mp hx with h | h
        · exact hch x h
        · simp only [List.mem_singleton] at h
          subst h
          exact le_trans (pyStrip_length_le current) hcur
      · by_cases hov : overlap > 0 ∧ current.length > overlap
        · rw [if_pos hov]
          have ht := pyTakeLast_length_le overlap current
          simp only [List.length_append, List.length_cons]
          omega
        · rw [if_neg hov]
          omega
    · rw [if_neg hcond]
      refine ih _ _ hrest hch ?_
      by_cases hne : current ≠ []
      · rw [if_pos hne]
        have hle : current.length + s.length ≤ chunk_size := by
          by_contra hgt
          exact hcond ⟨by omega, hne⟩
        simp only [List.length_append, List.length_cons]
        omega
      · rw [if_neg hne]
        omega

lemma ask_pairs_succ (f g : Nat → String) (a n : Nat) :
    ask_pairs f g a (n + 1) =
      ask_pairs f g a n ++ [⟨"user", f (a + n)⟩, ⟨"assistant", g (a + n)⟩] := by
  simp [ask_pairs, List.range_succ]

lemma ask_pairs_cons (f g : Nat → String) (a n : Nat) :
    ask_pairs f g a (n + 1) =
      ⟨"user", f a⟩ :: ⟨"assistant", g a⟩ :: ask_pairs f g (a + 1) n := by
  have hfun : (fun j => [(⟨"user", f (a + (j + 1))⟩ : Turn), ⟨"assistant", g (a + (j + 1))⟩]) =
      (fun j => [(⟨"user", f (a + 1 + j)⟩ : Turn), ⟨"assistant", g (a + 1 + j)⟩]) := by
    funext j
    have h : a + (j + 1) = a + 1 + j := by omega
    rw [h]
  unfold ask_pairs
  rw [List.range_succ_eq_map, List.flatMap_cons, List.flatMap_map]
  simp only [Nat.add_zero, Function.comp]
  rw [hfun]
  rfl

lemma ask_pairs_length (f g : Nat → String) (a n : Nat) :
    (ask_pairs f g a n).length = 2 * n := by
  induction n with
  | zero => rfl
  | succ k ih =>
    rw [ask_pairs_succ]
    simp [ih]
    omega

lemma run_asks_le10 (f g : Nat → String) :
    ∀ n, n ≤ 10 → run_asks f g n = ask_pairs f g 0 n := by
  intro n
  induction n with
  | zero => intro _; rfl
  | succ k ih =>
    intro hk
    rw [run_asks, ih (by omega), update_conversation_history]
    have hl : (ask_pairs f g 0 k ++
        [(⟨"user", f k⟩ : Turn), ⟨"assistant", g k⟩]).length = 2 * k + 2 := by
      simp [ask_pairs_length]
    rw [if_neg (by omega)]
    have := ask_pairs_succ f g 0 k
    simpa using this.symm

lemma run_asks_10_plus (f g : Nat → String) :
    ∀ k, run_asks f g (10 + k) = ask_pairs f g k 10 := by
  intro k
  induction k with
  | zero => simpa using run_asks_le10 f g 10 le_rfl
  | succ k ih =>
    have h1 : 10 + (k + 1) = (10 + k) + 1 := by omega
    rw [h1, run_asks, ih, update_conversation_history]
    have hck : 10 + k = k + 10 := by omega
    rw [hck, ← ask_pairs_succ f g k 10, ask_pairs_length f g k 11]
    norm_num
    rw [ask_pairs_cons]
    rfl

lemma sum_sq_nonneg (v : List ℝ) : 0 ≤ sum_sq v := by
  induction v with
  | nil => simp [sum_sq]
  | cons x t ih =>
    simp only [sum_sq, List.map_cons, List.sum_cons]
    have := mul_self_nonneg x
    unfold sum_sq at ih
    nlinarith

lemma np_dot_sq_le (v1 v2 : List ℝ) :
    (np_dot v1 v2) ^ 2 ≤ sum_sq v1 * sum_sq v2 := by
  induction v1 generalizing v2 with
  | nil => simp [np_dot, sum_sq]
  | cons a t1 ih =>
    cases v2 with
    | nil => simp [np_dot, sum_sq]
    | cons b t2 =>
      simp only [np_dot, sum_sq, List.zipWith_cons_cons, List.map_cons, List.sum_cons]
      have hIH := ih t2
      have hs1 := sum_sq_nonneg t1
      have hs2 := sum_sq_nonneg t2
      unfold np_dot sum_sq at hIH hs1 hs2
      rcases eq_or_lt_of_le hs2 with heq | hlt
      · have hd : (List.zipWith (· * ·) t1 t2).sum = 0 := by
          have := hIH
          nlinarith [sq_nonneg ((List.zipWith (· * ·) t1 t2).sum)]
        rw [hd]
        nlinarith [mul_self_nonneg a, mul_self_nonneg b, heq.symm]
      · nlinarith [sq_nonneg (a * (t2.map (fun x => x * x)).sum -
          b * (List.zipWith (· * ·) t1 t2).sum), hIH, hs1, hlt,
          sq_nonneg ((List.zipWith (· * ·) t1 t2).sum)]

/-! ## Claim theorems -/

/-- C1: the claim says a second `generate_embeddings_batch` call over the same
texts returns identical vectors and sends no already-embedded text to the
model.  In the code every call over a non-empty text list raises
`RuntimeError("Failed to generate batch embeddings")`, because the very first
cache probe `memory_optimizer.get_cached_embedding` (embedding_service.py line
111) is an `AttributeError`: the `MemoryOptimizer` class defines no such
method.  No call ever returns vectors and no cache is ever populated; both the
first and the repeated call fail identically, for every external model `f`. -/
theorem generate_embeddings_batch_twice_raises :
    ∀ f f2 : String → Vec,
      generate_embeddings_batch f ["hello", "world"] 32 =
        .error (.runtimeError "Failed to generate batch embeddings") ∧
      generate_embeddings_batch f2 ["hello", "world"] 32 =
        .error (.runtimeError "Failed to generate batch embeddings") :=
  fun _ _ => ⟨rfl, rfl⟩

/-- C2: the claim says `generate_embeddings_batch` returns one vector per
input text, in input order.  In the code every call with a non-empty `texts`
raises (the missing `get_cached_embedding` attribute, re-raised as
`RuntimeError`), for every external model `f` and every `batch_size`, so no
output list is ever produced. -/
theorem generate_embeddings_batch_nonempty_raises (f : String → Vec)
    (texts : List String) (batch_size : Nat) (h : texts ≠ []) :
    generate_embeddings_batch f texts batch_size =
      .error (.runtimeError "Failed to generate batch embeddings") := by
  cases texts with
  | nil => exact absurd rfl h
  | cons t ts => rfl

/-- C2 witness: the theorem applied to a concrete model and text list. -/
theorem generate_embeddings_batch_nonempty_raises_witness :
    generate_embeddings_batch (fun _ => ([] : Vec)) ["a"] 32 =
      .error (.runtimeError "Failed to generate batch embeddings") :=
  generate_embeddings_batch_nonempty_raises (fun _ => ([] : Vec)) ["a"] 32 (by simp)

/-- C3: if the ranked RPC raises, `search_similar_documents` returns exactly
the result of `_fallback_search`: up to `limit` unranked rows, each carrying
the constant placeholder similarity 0.5, and the empty list when the fallback
select itself raises.  The model is a total function, so no exception ever
propagates to the caller. -/
theorem search_similar_documents_error_fallback (c : SearchClient) (q : Vec)
    (limit : Nat) (thr : ℚ) (e : PyErr)
    (h : c.rpc_search q thr limit = .error e) :
    search_similar_documents c q limit thr = fallback_search c limit ∧
    (fallback_search c limit).length ≤ limit ∧
    ((fallback_search c limit).all fun r => decide (r.similarity = 1/2)) = true ∧
    (c.select_fails.isSome → fallback_search c limit = []) := by
  refine ⟨?_, ?_, ?_, ?_⟩
  · unfold search_similar_documents
    rw [h]
  · unfold fallback_search
    cases c.select_fails with
    | some e2 => simp
    | none =>
      simp only []
      by_cases he : (c.table_rows.take limit).isEmpty
      · rw [if_pos he]; simp
      · rw [if_neg he]
        simp only [List.length_map, List.length_take]
        omega
  · unfold fallback_search
    cases c.select_fails with
    | some e2 => simp
    | none =>
      by_cases he : (c.table_rows.take limit).isEmpty
      · rw [if_pos he]; simp
      · rw [if_neg he]
        simp only [List.all_eq_true, decide_eq_true_eq]
        intro x hx
        rcases List.mem_map.mp hx with ⟨d, _, rfl⟩
        norm_num
  · intro hsel
    unfold fallback_search
    cases hs : c.select_fails with
    | some e2 => simp
    | none => rw [hs] at hsel; simp at hsel

/-- C3 witness: the theorem applied to a client whose RPC raises and whose
table holds two rows. -/
theorem search_similar_documents_error_fallback_witness :
    search_similar_documents rpc_error_client [] 5 (3/5) =
      fallback_search rpc_error_client 5 ∧
    (fallback_search rpc_error_client 5).length ≤ 5 ∧
    ((fallback_search rpc_error_client 5).all fun r =>
      decide (r.similarity = 1/2)) = true ∧
    (rpc_error_client.select_fails.isSome → fallback_search rpc_error_client 5 = []) :=
  search_similar_documents_error_fallback rpc_error_client [] 5 (3/5)
    (.other "RPC missing") rfl

/-- C4: if the ranked RPC returns zero rows at the caller threshold without
raising, `search_similar_documents` re-invokes it exactly once more, at the
fixed relaxed threshold 0.3 with the same limit, and returns whatever that
retry yields (possibly empty); the invocation trace holds exactly those two
calls. -/
theorem search_similar_documents_relaxed_retry (c : SearchClient) (q : Vec)
    (limit : Nat) (thr : ℚ) (d : List SearchResult)
    (h0 : c.rpc_search q thr limit = .ok [])
    (h1 : c.rpc_search q (3/10) limit = .ok d) :
    search_similar_documents c q limit thr = d ∧
    search_rpc_trace c q limit thr = [(q, thr, limit), (q, 3/10, limit)] := by
  constructor
  · unfold search_similar_documents
    rw [h0, h1]
  · unfold search_rpc_trace
    rw [h0]

/-- C4 witness: the theorem applied to a client whose RPC always returns zero
rows, at threshold 0.6 and limit 5. -/
theorem search_similar_documents_relaxed_retry_witness :
    search_similar_documents rpc_empty_client [] 5 (3/5) = [] ∧
    search_rpc_trace rpc_empty_client [] 5 (3/5) = [([], 3/5, 5), ([], 3/10, 5)] :=
  search_similar_documents_relaxed_retry rpc_empty_client [] 5 (3/5) [] rfl rfl

/-- C5 counterexample: the claim says every chunk of a sentence-preserving
`chunk_text` run has length at most `chunk_size` unless it consists of one
oversized sentence.  With chunk_size 6 and overlap 0 the text "ab. cd. ef."
produces the chunk "ab. cd." of length 7 > 6, built from two sentences of
length 3 each — the size check at text_utils.py line 82 does not count the
joining space added at line 91. -/
theorem chunk_text_bound_counterexample :
    chunk_text ("ab. cd. ef.".toList) 6 0 true = ["ab. cd.".toList, "ef.".toList] ∧
    ("ab. cd.".toList).length = 7 ∧
    split_into_sentences ("ab. cd. ef.".toList) =
      ["ab.".toList, "cd.".toList, "ef.".toList] ∧
    ("ab.".toList).length = 3 ∧ ("cd.".toList).length = 3 ∧ ("ef.".toList).length = 3 := by
  refine ⟨by decide, by decide, by decide, by decide, by decide, by decide⟩

/-- C5 amended: every chunk of a sentence-preserving `chunk_text` run has
length at most `max (chunk_size + 1) (overlap + 1 + L)` where `L` is the
longest sentence length — i.e. the bound of the claim holds only up to the
uncounted joining space (one character) and, when a chunk is seeded from an
overlap suffix, additionally up to `overlap + 1` characters on top of its
first sentence; a lone sentence longer than `chunk_size` is kept whole within
the same bound. -/
theorem chunk_text_oversize_bound (text : List Char) (chunk_size overlap : Nat)
    (c : List Char) (hc : c ∈ chunk_text text chunk_size overlap true) :
    c.length ≤ max (chunk_size + 1) (overlap + 1 + max_sentence_len text) := by
  unfold chunk_text at hc
  by_cases h0 : text = []
  · rw [if_pos h0] at hc
    cases hc
  rw [if_neg h0] at hc
  by_cases h1 : text.length ≤ chunk_size
  · rw [if_pos h1] at hc
    simp only [List.mem_singleton] at hc
    subst hc
    exact le_trans (le_trans h1 (Nat.le_succ _)) (le_max_left _ _)
  · rw [if_neg h1] at hc
    simp only [if_pos] at hc
    have hmem := List.mem_of_mem_filter hc
    have hacc := chunk_accum_bound chunk_size overlap (max_sentence_len text)
      (max (chunk_size + 1) (overlap + 1 + max_sentence_len text))
      (le_max_left _ _) (le_max_right _ _)
      (split_into_sentences text) [] []
      (fun s hs => le_foldr_max (List.mem_map_of_mem List.length hs))
      (by intro x hx; cases hx) (by simp)
    set acc := chunk_accum chunk_size overlap [] [] (split_into_sentences text)
    by_cases h2 : acc.2 ≠ []
    · rw [if_pos h2] at hmem
      rcases List.mem_append.mp hmem with h | h
      · exact hacc.1 c h
      · simp only [List.mem_singleton] at h
        subst h
        exact le_trans (pyStrip_length_le acc.2) hacc.2
    · rw [if_neg h2] at hmem
      exact hacc.1 c hmem

/-- C5 witness: the amended bound applied to a concrete chunk of a concrete
run. -/
theorem chunk_text_oversize_bound_witness :
    ("ef.".toList).length ≤
      max (6 + 1) (0 + 1 + max_sentence_len ("ab. cd. ef.".toList)) :=
  chunk_text_oversize_bound ("ab. cd. ef.".toList) 6 0 ("ef.".toList) (by decide)

/-- C6: the claim says a failed ask or stream call always returns a
response-shaped value and never lets an exception escape.  `ask_question`
satisfies this, but when the streaming pipeline raises, the except-clause of
`stream_response` yields the error fragment and then evaluates the undefined
name `error_message` (rag_controller.py line 145), so a `NameError` escapes
the generator to any consumer that keeps iterating: with an environment whose
backend raises while streaming, the observed behaviour is one error fragment
followed by an escaping `NameError`, for every history and question. -/
theorem stream_response_error_escapes (history : List Turn) (question : String) :
    stream_response stream_fail_env history question =
      (["I encountered an error: LLM backend unreachable"],
       some (.nameError "name error_message is not defined"), history) :=
  rfl

/-- C7: the claim says `batch_insert_documents` commits batches in order named
and returns True when the store confirms every batch.  In the code the
embedding step `generate_embeddings_batch` raises on any non-empty batch (the
missing cache method), the except-clause turns that into `False`, and the
store is never reached: even with a store that would confirm everything, a
single-document ingestion returns `False` and commits nothing, for every
external model `f` and every starting store. -/
theorem batch_insert_documents_never_commits :
    ∀ (f : String → Vec) (store : List InsertRow),
      batch_insert_documents f (fun _ => true) store [⟨"doc", []⟩] 50 =
        (store, false) := by
  intro f store
  have h : generate_embeddings_batch f ["doc"] 32 =
      .error (.runtimeError "Failed to generate batch embeddings") := rfl
  unfold batch_insert_documents
  rw [batch_insert_loop]
  simp [h]

/-- C8 counterexample: the claim says `calculate_similarity` returns a score
in the interval from 0 to 1; on the vectors (1) and (-1) it returns exactly
-1, which is below 0 — raw cosine similarity is returned without clamping. -/
theorem calculate_similarity_negative :
    calculate_similarity [(1 : ℝ)] [(-1 : ℝ)] = -1 ∧
    calculate_similarity [(1 : ℝ)] [(-1 : ℝ)] < 0 := by
  have h1 : sum_sq [(1 : ℝ)] = 1 := by simp [sum_sq]
  have h2 : sum_sq [(-1 : ℝ)] = 1 := by simp [sum_sq]
  have hd : np_dot [(1 : ℝ)] [(-1 : ℝ)] = -1 := by simp [np_dot]
  have heq : calculate_similarity [(1 : ℝ)] [(-1 : ℝ)] = -1 := by
    unfold calculate_similarity
    rw [h1, h2, hd, Real.sqrt_one]
    norm_num
  exact ⟨heq, by rw [heq]; norm_num⟩

/-- C8 amended: for equal-length vectors `calculate_similarity` returns a
score in the interval from -1 to 1 (not from 0 to 1), and when either vector
has zero norm it returns exactly 0 instead of raising a division error. -/
theorem calculate_similarity_range (e1 e2 : List ℝ) (_h : e1.length = e2.length) :
    -1 ≤ calculate_similarity e1 e2 ∧ calculate_similarity e1 e2 ≤ 1 ∧
    ((Real.sqrt (sum_sq e1) = 0 ∨ Real.sqrt (sum_sq e2) = 0) →
      calculate_similarity e1 e2 = 0) := by
  unfold calculate_similarity
  by_cases hz : Real.sqrt (sum_sq e1) = 0 ∨ Real.sqrt (sum_sq e2) = 0
  · rw [if_pos hz]
    norm_num
  · rw [if_neg hz]
    push_neg at hz
    obtain ⟨h1, h2⟩ := hz
    have hs1 : 0 ≤ sum_sq e1 := sum_sq_nonneg e1
    have hn1 : 0 < Real.sqrt (sum_sq e1) :=
      lt_of_le_of_ne (Real.sqrt_nonneg _) (Ne.symm h1)
    have hn2 : 0 < Real.sqrt (sum_sq e2) :=
      lt_of_le_of_ne (Real.sqrt_nonneg _) (Ne.symm h2)
    have hprod : 0 < Real.sqrt (sum_sq e1) * Real.sqrt (sum_sq e2) := mul_pos hn1 hn2
    have habs : |np_dot e1 e2| ≤ Real.sqrt (sum_sq e1) * Real.sqrt (sum_sq e2) := by
      have hle := Real.sqrt_le_sqrt (np_dot_sq_le e1 e2)
      rw [Real.sqrt_sq_eq_abs, Real.sqrt_mul hs1] at hle
      exact hle
    have habs_div : |np_dot e1 e2 / (Real.sqrt (sum_sq e1) * Real.sqrt (sum_sq e2))| ≤ 1 := by
      rw [abs_div, abs_of_pos hprod, div_le_one hprod]
      exact habs
    have hb := abs_le.mp habs_div
    exact ⟨hb.1, hb.2, fun hcontra => absurd hcontra (by push_neg; exact ⟨h1, h2⟩)⟩

/-- C8 witness: the amended range applied to two concrete unit vectors. -/
theorem calculate_similarity_range_witness :
    -1 ≤ calculate_similarity [(1 : ℝ)] [(1 : ℝ)] ∧
    calculate_similarity [(1 : ℝ)] [(1 : ℝ)] ≤ 1 ∧
    ((Real.sqrt (sum_sq [(1 : ℝ)]) = 0 ∨ Real.sqrt (sum_sq [(1 : ℝ)]) = 0) →
      calculate_similarity [(1 : ℝ)] [(1 : ℝ)] = 0) :=
  calculate_similarity_range [(1 : ℝ)] [(1 : ℝ)] rfl

/-- C9: every successful ask appends one user turn followed by one assistant
turn through `_update_conversation_history`; the updated history is the last
20 entries of the appended list (so its length never exceeds 20, and nothing
is dropped while the cap is not exceeded); and after 25 ask calls from an
empty history exactly the 20 turns of the 10 most recent exchanges (asks 15
through 24) remain. -/
theorem conversation_history_cap_thm (f g : Nat → String) (history : List Turn)
    (question response : String) (hcap : history.length ≤ 20) :
    (update_conversation_history history question response).length ≤ 20 ∧
    update_conversation_history history question response =
      (history ++ [(⟨"user", question⟩ : Turn), ⟨"assistant", response⟩]).drop
        ((history.length + 2) - 20) ∧
    run_asks f g 25 = ask_pairs f g 15 10 ∧
    (run_asks f g 25).length = 20 := by
  have hlen : (history ++ [(⟨"user", question⟩ : Turn), ⟨"assistant", response⟩]).length =
      history.length + 2 := by simp
  refine ⟨?_, ?_, ?_, ?_⟩
  · unfold update_conversation_history
    by_cases h : (history ++ [(⟨"user", question⟩ : Turn), ⟨"assistant", response⟩]).length > 20
    · rw [if_pos h]
      simp only [List.length_drop]
      omega
    · rw [if_neg h]
      omega
  · unfold update_conversation_history
    by_cases h : (history ++ [(⟨"user", question⟩ : Turn), ⟨"assistant", response⟩]).length > 20
    · rw [if_pos h, hlen]
    · rw [if_neg h]
      have : history.length + 2 - 20 = 0 := by omega
      rw [this, List.drop_zero]
  · have : (25 : Nat) = 10 + 15 := by omega
    rw [this, run_asks_10_plus]
  · have : (25 : Nat) = 10 + 15 := by omega
    rw [this, run_asks_10_plus, ask_pairs_length]

/-- C9 witness: the theorem applied to a concrete history, turn pair and ask
transcript. -/
theorem conversation_history_cap_witness :
    (update_conversation_history [] "hi" "there").length ≤ 20 ∧
    update_conversation_history [] "hi" "there" =
      (([] : List Turn) ++ [(⟨"user", "hi"⟩ : Turn), ⟨"assistant", "there"⟩]).drop
        ((List.length ([] : List Turn) + 2) - 20) ∧
    run_asks (fun n => toString n) (fun n => toString (n + 100)) 25 =
      ask_pairs (fun n => toString n) (fun n => toString (n + 100)) 15 10 ∧
    (run_asks (fun n => toString n) (fun n => toString (n + 100)) 25).length = 20 :=
  conversation_history_cap_thm (fun n => toString n) (fun n => toString (n + 100))
    [] "hi" "there" (by simp)

/-- C10: with `0 < chunk_size` the character-based branch of `chunk_text`
terminates whenever `overlap < chunk_size`: fuel equal to the text length
already completes the while-loop, because each iteration advances the window
start by exactly `chunk_size - overlap`; and the advance condition is an
equivalence — the start strictly increases precisely when the overlap is
below the chunk size, so the precondition is necessary. -/
theorem chunk_text_char_window_terminates (text : List Char)
    (chunk_size overlap start ov2 start2 : Nat)
    (_hcs : 0 < chunk_size) (hov : overlap < chunk_size) :
    (char_chunk_loop text chunk_size overlap text.length 0).isSome ∧
    char_chunk_step chunk_size overlap start = start + (chunk_size - overlap) ∧
    (start2 < char_chunk_step chunk_size ov2 start2 ↔ ov2 < chunk_size) := by
  refine ⟨char_chunk_loop_isSome text _ _ hov text.length 0 (by omega), ?_, ?_⟩
  · unfold char_chunk_step
    split <;> omega
  · unfold char_chunk_step
    split <;> omega

/-- C10 witness: the theorem applied at concrete text, sizes and starts. -/
theorem chunk_text_char_window_terminates_witness :
    (char_chunk_loop ("abcde".toList) 3 1 ("abcde".toList).length 0).isSome ∧
    char_chunk_step 3 1 4 = 4 + (3 - 1) ∧
    (7 < char_chunk_step 3 9 7 ↔ 9 < 3) :=
  chunk_text_char_window_terminates ("abcde".toList) 3 1 4 9 7 (by decide) (by decide)
